import Mathlib

/-!
Verification development for the exorde-reddit scrapper
(single source file: exorde_reddit.py).

The Python source is shallowly embedded as follows.

Pure pieces (RedditScrapper.to_isoformat, the str.lstrip id-derivation in
parse_post / parse_comment) are translated directly as Lean functions.

Stateful pieces are translated as explicit state passing:
the scroll loops of RedditScrapper.search and RedditScrapper.search_comments
(identical in structure, differing only in the record type and the
deduplication key) become one parametric loop, pagLoop, over a PagState.
The render surface (playwright Page) is an oracle: reading the raw record
list at scroll attempt n -- the sequence page.locator(...).element_handles()
followed by the per-element scroll_into_view_if_needed calls of lines
145-148 / 227-230 -- is a fallible function Nat -> Except PyError (List rho).
Per-record parsing (parse_post / parse_comment, whose own awaits such as
hover and wait_for_selector can also raise) is a fallible oracle
rho -> Except PyError record; search wraps it in stop_raise exactly like
the source, turning any exception into a skipped record.

Cooperative concurrency: the asyncio.Semaphore admission discipline of
with_semaphore is a step relation SemStep on per-task phases
(pending, active, done); a task may enter the active phase only while
fewer than budget tasks are active, exactly the acquire of line 44.
asyncio.wait(tasks) at line 177 never re-raises task exceptions, so a
comment-fetch task that exhausted its retries leaves its post with the
comment list it was created with; finishComments models the settled
outcome of one scheduled task.

Python exceptions are modelled as the message-carrying type PyError;
fallible code returns Except PyError.
-/

namespace ExordeReddit

/-- PyError models a raised Python exception, carrying its message. -/
abbrev PyError := String

/-- RedditComment, dataclass of lines 12-16 of exorde_reddit.py. -/
structure RedditComment where
  id : String
  text : String
  created_at : String
deriving DecidableEq, Repr

/-- RedditPost, dataclass of lines 19-25 of exorde_reddit.py. -/
structure RedditPost where
  id : String
  subreddit : String
  title : String
  created_at : String
  comments : List RedditComment
deriving DecidableEq, Repr

namespace RedditScrapper

/-- SCROLL_TRIES, class constant of line 101. -/
def SCROLL_TRIES : Nat := 3

/-- MAX_CONCURRENT_TASK, class constant of line 103. -/
def MAX_CONCURRENT_TASK : Nat := 1

end RedditScrapper

/-- stop_raise (lines 73-82): runs the wrapped function, swallowing any
exception; the wrapper returns None (here: Option.none) when the wrapped
call raised, and the result otherwise. -/
def stop_raise {ρ α : Type} (f : ρ → Except PyError α) (r : ρ) : Option α :=
  match f r with
  | Except.ok a => some a
  | Except.error _ => none

/-- Attempt loop of retry (lines 57-67): attempt numbers count up from 1;
the first successful attempt returns immediately; otherwise the last
exception is remembered and re-raised once the attempts are spent. -/
def retryGo {ε α : Type} (f : Nat → Except ε α) : Nat → Nat → Option ε → Except (Option ε) α
  | 0, _, last => Except.error last
  | n + 1, i, _ =>
    match f i with
    | Except.ok a => Except.ok a
    | Except.error e => retryGo f n (i + 1) (some e)

/-- retry (lines 51-70): f i is the outcome of attempt number i (1-based).
A max_attempts below 1 raises the configuration exception of line 55,
modelled as Except.error none; otherwise the attempts run in order and
the last exception is re-raised after exhaustion (Except.error (some e)). -/
def retryRun {ε α : Type} (f : Nat → Except ε α) (max_attempts : Nat) : Except (Option ε) α :=
  if max_attempts < 1 then Except.error none
  else retryGo f max_attempts 1 none

/-- Phase of one scheduled comment-fetch task: created but not yet past the
semaphore (pending), holding the semaphore and running (active, covering
every retry attempt and the page lifecycle, since with_semaphore at line 168
is the outermost wrapper), or settled (done). -/
inductive TaskPhase : Type
  | pending
  | active
  | done
deriving DecidableEq, Repr

/-- Number of tasks currently holding the active phase. -/
def countActive (l : List TaskPhase) : Nat :=
  l.countP (fun t => decide (t = TaskPhase.active))

/-- Admission discipline of with_semaphore (lines 41-48) around
asyncio.Semaphore(MAX_CONCURRENT_TASK): a pending task may become active
only while fewer than budget tasks are active (the acquire of the
async-with at line 44); an active task may settle at any time (release).
There is no other way for a task to become active: every scheduled
coroutine is wrapped by with_semaphore at line 168 before create_task. -/
inductive SemStep (budget : Nat) : List TaskPhase → List TaskPhase → Prop
  | acquire (pre post : List TaskPhase) :
      countActive (pre ++ TaskPhase.pending :: post) < budget →
      SemStep budget (pre ++ TaskPhase.pending :: post) (pre ++ TaskPhase.active :: post)
  | release (pre post : List TaskPhase) :
      SemStep budget (pre ++ TaskPhase.active :: post) (pre ++ TaskPhase.done :: post)

/-- Python str.split() with no argument: split on runs of whitespace,
dropping empty tokens (helper for line 108). Accumulator holds the
current token reversed. -/
def wordsAux : List Char → List Char → List (List Char)
  | [], acc => if acc.isEmpty then [] else [acc.reverse]
  | c :: rest, acc =>
    if c.isWhitespace then
      if acc.isEmpty then wordsAux rest [] else acc.reverse :: wordsAux rest []
    else wordsAux rest (c :: acc)

/-- value.split() of line 108. -/
def pySplitWs (s : String) : List String :=
  (wordsAux s.data []).map String.mk

/-- Line 108: result = " ".join(value.split()[:-3]) -- drop the last three
whitespace-delimited tokens and re-join with single spaces. -/
def stripLast3 (s : String) : String :=
  let ts := pySplitWs s
  String.intercalate " " (ts.take (ts.length - 3))

/-- Case-insensitive literal match (strptime compiles its patterns with
IGNORECASE); returns the remaining input on success. -/
def matchTokenCI : List Char → List Char → Option (List Char)
  | [], l => some l
  | _ :: _, [] => none
  | p :: ps, c :: cs => if p.toLower = c.toLower then matchTokenCI ps cs else none

/-- Match any of the given names (all the same length here, so the order of
alternatives cannot matter), returning the remaining input. -/
def matchOneOfCI (pats : List String) (l : List Char) : Option (List Char) :=
  match pats with
  | [] => none
  | p :: ps =>
    match matchTokenCI p.data l with
    | some rest => some rest
    | none => matchOneOfCI ps l

/-- Match one of the month names, returning its 1-based number and the
remaining input. -/
def matchMonthCI : List String → Nat → List Char → Option (Nat × List Char)
  | [], _, _ => none
  | p :: ps, i, l =>
    match matchTokenCI p.data l with
    | some rest => some (i, rest)
    | none => matchMonthCI ps (i + 1) l

/-- Abbreviated weekday names recognised by %a in the C locale. -/
def wdNames : List String := ["Mon", "Tue", "Wed", "Thu", "Fri", "Sat", "Sun"]

/-- Abbreviated month names recognised by %b in the C locale. -/
def monthNames : List String :=
  ["Jan", "Feb", "Mar", "Apr", "May", "Jun", "Jul", "Aug", "Sep", "Oct", "Nov", "Dec"]

/-- One-or-more whitespace characters; a blank in an strptime format string
matches any whitespace run. -/
def skipWs1 : List Char → Option (List Char)
  | c :: rest =>
    if c.isWhitespace then some (rest.dropWhile Char.isWhitespace) else none
  | [] => none

/-- Exact literal character of the format string. -/
def expectChar (c : Char) : List Char → Option (List Char)
  | d :: rest => if d = c then some rest else none
  | [] => none

/-- Numeric field of one or two digits, mirroring the regexes strptime
builds for %d, %I, %M and %S: a two-digit reading is taken when its value
lies in lo2..hi2, otherwise a single digit with value at least lo1. -/
def parseNum2 (lo2 hi2 lo1 : Nat) : List Char → Option (Nat × List Char)
  | c1 :: c2 :: rest =>
    if c1.isDigit ∧ c2.isDigit ∧ lo2 ≤ (c1.toNat - 48) * 10 + (c2.toNat - 48)
        ∧ (c1.toNat - 48) * 10 + (c2.toNat - 48) ≤ hi2 then
      some ((c1.toNat - 48) * 10 + (c2.toNat - 48), rest)
    else if c1.isDigit ∧ lo1 ≤ c1.toNat - 48 then
      some (c1.toNat - 48, c2 :: rest)
    else none
  | [c1] =>
    if c1.isDigit ∧ lo1 ≤ c1.toNat - 48 then some (c1.toNat - 48, []) else none
  | [] => none

/-- Exactly four digits, the regex strptime builds for %Y. -/
def parseYear4 : List Char → Option (Nat × List Char)
  | a :: b :: c :: d :: rest =>
    if a.isDigit ∧ b.isDigit ∧ c.isDigit ∧ d.isDigit then
      some ((((a.toNat - 48) * 10 + (b.toNat - 48)) * 10 + (c.toNat - 48)) * 10
        + (d.toNat - 48), rest)
    else none
  | _ => none

/-- %p: AM or PM, case-insensitively; true means PM. -/
def parseAmPm (l : List Char) : Option (Bool × List Char) :=
  match matchTokenCI ['A', 'M'] l with
  | some rest => some (false, rest)
  | none =>
    match matchTokenCI ['P', 'M'] l with
    | some rest => some (true, rest)
    | none => none

/-- Fields extracted by strptime for the fixed format of line 109. -/
structure ParsedDT where
  year : Nat
  month : Nat
  day : Nat
  hour12 : Nat
  minute : Nat
  second : Nat
  isPM : Bool
deriving DecidableEq, Repr

/-- Date half of the format of line 109: "%a, %b %d, %Y," -- yields
year, month, day and the remaining input. -/
def parseDatePart (l : List Char) : Option (Nat × Nat × Nat × List Char) := do
  let l ← matchOneOfCI wdNames l
  let l ← expectChar ',' l
  let l ← skipWs1 l
  let (mo, l) ← matchMonthCI monthNames 1 l
  let l ← skipWs1 l
  let (d, l) ← parseNum2 1 31 1 l
  let l ← expectChar ',' l
  let l ← skipWs1 l
  let (y, l) ← parseYear4 l
  let l ← expectChar ',' l
  let l ← skipWs1 l
  some (y, mo, d, l)

/-- Time half of the format of line 109: "%I:%M:%S %p" -- yields the
12-hour clock fields and the PM flag; any unconverted trailing input is
an error, as in strptime. -/
def parseTimePart (l : List Char) : Option (Nat × Nat × Nat × Bool) := do
  let (h, l) ← parseNum2 1 12 1 l
  let l ← expectChar ':' l
  let (mi, l) ← parseNum2 0 59 0 l
  let l ← expectChar ':' l
  let (sec, l) ← parseNum2 0 61 0 l
  let l ← skipWs1 l
  let (pm, l) ← parseAmPm l
  match l with
  | [] => some (h, mi, sec, pm)
  | _ :: _ => none

/-- datetime.strptime(s, "%a, %b %d, %Y, %I:%M:%S %p") of line 109 up to
(but excluding) the validation datetime performs on construction: the
weekday is matched but, as in Python, never checked against the date. -/
def strptimeReddit (s : String) : Option ParsedDT := do
  let (y, mo, d, l) ← parseDatePart s.data
  let (h, mi, sec, pm) ← parseTimePart l
  some ⟨y, mo, d, h, mi, sec, pm⟩

/-- Gregorian leap-year rule used by datetime's day-of-month validation. -/
def isLeapYear (y : Nat) : Bool :=
  y % 4 == 0 && (y % 100 != 0 || y % 400 == 0)

/-- Days in a month, for datetime's day-of-month validation. -/
def daysInMonth (y m : Nat) : Nat :=
  if m = 2 then (if isLeapYear y then 29 else 28)
  else if m = 4 ∨ m = 6 ∨ m = 9 ∨ m = 11 then 30
  else 31

/-- Decimal digit character. -/
def digitChar (n : Nat) : Char := Char.ofNat (48 + n)

/-- Two-digit zero-padded decimal rendering, as in isoformat. -/
def pad2 (n : Nat) : String := String.mk [digitChar (n / 10 % 10), digitChar (n % 10)]

/-- Four-digit zero-padded decimal rendering, as in isoformat. -/
def pad4 (n : Nat) : String :=
  String.mk [digitChar (n / 1000 % 10), digitChar (n / 100 % 10),
    digitChar (n / 10 % 10), digitChar (n % 10)]

/-- RedditScrapper.to_isoformat (lines 106-111): drop the last three
whitespace-delimited tokens, strptime the remainder against
"%a, %b %d, %Y, %I:%M:%S %p", and render datetime.isoformat().
none models the ValueError raised when the remainder does not match or
when datetime rejects the field values (day beyond the month's length,
a leap-second, or year zero). The %I/%p fields combine into a 24-hour
value exactly as in Python's _strptime. -/
def RedditScrapper.to_isoformat (value : String) : Option String := do
  let p ← strptimeReddit (stripLast3 value)
  let hour := if p.isPM then (if p.hour12 = 12 then 12 else p.hour12 + 12)
              else (if p.hour12 = 12 then 0 else p.hour12)
  if 1 ≤ p.year ∧ p.day ≤ daysInMonth p.year p.month ∧ p.second ≤ 59 then
    some (pad4 p.year ++ "-" ++ pad2 p.month ++ "-" ++ pad2 p.day ++ "T"
      ++ pad2 hour ++ ":" ++ pad2 p.minute ++ ":" ++ pad2 p.second)
  else none

/-- Python str.lstrip(chars): remove every leading character that is a
member of the given character set. -/
def pyLstrip (chars : List Char) (s : String) : String :=
  String.mk (s.data.dropWhile (fun c => decide (c ∈ chars)))

/-- Line 183: id.lstrip("t3_") -- the id a post is materialized with. -/
def postIdFromAttr (idAttr : String) : String :=
  pyLstrip ['t', '3', '_'] idAttr

/-- Line 265: id.lstrip("t1_") -- the id a comment is materialized with. -/
def commentIdFromAttr (idAttr : String) : String :=
  pyLstrip ['t', '1', '_'] idAttr

/-- Data parse_post reads from one rendered .Post element: the id
attribute, the subreddit and title texts, and the hover-popup timestamp
text. Element lookup or interaction failures (hover, wait_for_selector)
are surface failures of the parse oracle, modelled at the call site by an
Except-valued oracle; this structure is the successfully-read raw data. -/
structure PostElement where
  idAttr : String
  subredditText : String
  titleText : String
  createdAtText : String
deriving DecidableEq, Repr

/-- RedditScrapper.parse_post (lines 181-204) on successfully-read element
data: derive the id with lstrip, copy subreddit and title, normalize the
timestamp (a ValueError from to_isoformat propagates as the error), and
create the post with an empty comment list. -/
def RedditScrapper.parse_post (e : PostElement) : Except PyError RedditPost :=
  match RedditScrapper.to_isoformat e.createdAtText with
  | none => Except.error "ValueError"
  | some created =>
    Except.ok
      { id := postIdFromAttr e.idAttr
        subreddit := e.subredditText
        title := e.titleText
        created_at := created
        comments := [] }

/-- Data parse_comment reads from one rendered comment element; the text
element may be absent (line 268). -/
structure CommentElement where
  idAttr : String
  textSel : Option String
  createdAtText : String
deriving DecidableEq, Repr

/-- RedditScrapper.parse_comment (lines 263-280) on successfully-read
element data. -/
def RedditScrapper.parse_comment (e : CommentElement) : Except PyError RedditComment :=
  match RedditScrapper.to_isoformat e.createdAtText with
  | none => Except.error "ValueError"
  | some created =>
    Except.ok
      { id := commentIdFromAttr e.idAttr
        text := e.textSel.getD ""
        created_at := created }

/-- Mutable state of one scroll loop (search, lines 132-143, and
search_comments, lines 210-225): the accepted records in discovery order
(posts / comments), the set of composite keys already materialized
(post_ids / comment_ids, modelled as a list queried by membership), the
have_new flag and the tries stall counter. -/
structure PagState (α κ : Type) where
  accepted : List α
  seen : List κ
  haveNew : Bool
  tries : Nat
deriving DecidableEq, Repr

/-- State at loop entry: empty accepted list, empty key set,
have_new = True, tries = 0 (lines 132-136 / 210-213). -/
def initPagState {α κ : Type} : PagState α κ :=
  { accepted := [], seen := [], haveNew := true, tries := 0 }

/-- Body of the for-loop over one slice element (lines 147-163 / 229-254):
a record whose parse returned None is skipped; a record whose key is
already in the set is skipped with a warning; otherwise the stall counter
resets to 0, the new-record flag is raised, the key is added and the
record is appended. -/
def processRecord {ρ α κ : Type} [DecidableEq κ] (key : α → κ) (parse : ρ → Option α)
    (st : PagState α κ) (r : ρ) : PagState α κ :=
  match parse r with
  | none => st
  | some a =>
    if key a ∈ st.seen then st
    else
      { accepted := st.accepted ++ [a]
        seen := key a :: st.seen
        haveNew := true
        tries := 0 }

/-- One reveal attempt (lines 139-173 / 216-258): clear the new-record
flag, bump the stall counter, read the full current raw record list from
the surface (which may raise), drop as many records from its front as are
currently accepted -- element_handles[len(posts):] at line 146 and
element_handles[len(comments):] at line 228 slice by the length of the
accepted list -- and process the remaining slice in order. -/
def pagAttempt {ρ α κ : Type} [DecidableEq κ] (key : α → κ)
    (raws : Nat → Except PyError (List ρ)) (parse : ρ → Option α)
    (n : Nat) (st : PagState α κ) : Except PyError (PagState α κ) :=
  let st1 : PagState α κ := { st with haveNew := false, tries := st.tries + 1 }
  match raws n with
  | Except.error e => Except.error e
  | Except.ok l =>
      Except.ok (List.foldl (processRecord key parse) st1 (l.drop st1.accepted.length))

/-- Loop guard of lines 138 / 215: while have_new or tries < SCROLL_TRIES. -/
def loopCond {α κ : Type} (st : PagState α κ) : Bool :=
  st.haveNew || decide (st.tries < RedditScrapper.SCROLL_TRIES)

/-- The scroll loop itself, driven by fuel (the Python loop has no
iteration cap and can run forever on an ever-growing surface; none means
the given fuel was exhausted before the loop exited). n numbers the
reveal attempts, so raws n is the raw list the surface exposes on
attempt n. A surface failure aborts the loop (there is no try/except
around the loop body apart from the stop_raise on the parser). -/
def pagLoop {ρ α κ : Type} [DecidableEq κ] (key : α → κ)
    (raws : Nat → Except PyError (List ρ)) (parse : ρ → Option α) :
    Nat → Nat → PagState α κ → Option (Except PyError (PagState α κ))
  | 0, _, _ => none
  | fuel + 1, n, st =>
    if loopCond st then
      match pagAttempt key raws parse n st with
      | Except.error e => some (Except.error e)
      | Except.ok st2 => pagLoop key raws parse fuel (n + 1) st2
    else
      some (Except.ok st)

/-- Records of one slice that are accepted, given the keys seen so far:
parse failures and already-seen keys are skipped, new keys are kept in
order and immediately added to the seen set. This is the specification
companion of the foldl in pagAttempt. -/
def newRecords {ρ α κ : Type} [DecidableEq κ] (key : α → κ) (parse : ρ → Option α)
    (seen : List κ) : List ρ → List α
  | [] => []
  | r :: rs =>
    match parse r with
    | none => newRecords key parse seen rs
    | some a =>
      if key a ∈ seen then newRecords key parse seen rs
      else a :: newRecords key parse (key a :: seen) rs

/-- Composite key of a post (line 156): (subreddit, id). -/
def postKey (p : RedditPost) : String × String := (p.subreddit, p.id)

/-- Composite key of a comment within one post (line 242): id. -/
def commentKey (c : RedditComment) : String := c.id

/-- Settled outcome of the comment-fetch task scheduled for one post
(lines 165-170): the coroutine stack with_semaphore(retry(with_page(
search_comments))) with max_attempts=3; fetch p i is the outcome of
attempt i. On the first successful attempt, search_comments assigns
post.comments = comments (line 260); if every attempt raised, retry
re-raises, asyncio.wait (line 177) leaves the exception unretrieved, and
the post keeps the comment list it was created with. -/
def finishComments (fetch : RedditPost → Nat → Except PyError (List RedditComment))
    (p : RedditPost) : RedditPost :=
  match retryRun (fetch p) 3 with
  | Except.ok cs => { p with comments := cs }
  | Except.error _ => p

/-- RedditScrapper.search (lines 128-179): navigate to the search page
(goto, which may raise and abort), run the scroll loop with the
(subreddit, id) key, stop_raise around the per-record parser, then await
every scheduled comment task and return the posts in discovery order,
each carrying its settled comment list. The per-record parse oracle
covers parse_post together with the element reads and interactions it
awaits; its exceptions are swallowed by stop_raise (lines 150-155).
A goto or raw-list read failure propagates out of search unhandled. -/
def RedditScrapper.search {ρ : Type} (goto : Except PyError Unit)
    (raws : Nat → Except PyError (List ρ))
    (parsePostOracle : ρ → Except PyError RedditPost)
    (fetch : RedditPost → Nat → Except PyError (List RedditComment))
    (fuel : Nat) : Option (Except PyError (List RedditPost)) :=
  match goto with
  | Except.error e => some (Except.error e)
  | Except.ok _ =>
    match pagLoop postKey raws (stop_raise parsePostOracle) fuel 0 initPagState with
    | none => none
    | some (Except.error e) => some (Except.error e)
    | some (Except.ok st) =>
        some (Except.ok (st.accepted.map (finishComments fetch)))

/-- RedditScrapper.search_comments (lines 206-261): navigate to the post
page, run the same scroll loop with the comment-id key and a fresh
deduplication set, and return the comments in discovery order. -/
def RedditScrapper.search_comments {χ : Type} (goto : Except PyError Unit)
    (raws : Nat → Except PyError (List χ))
    (parseCommentOracle : χ → Except PyError RedditComment)
    (fuel : Nat) : Option (Except PyError (List RedditComment)) :=
  match goto with
  | Except.error e => some (Except.error e)
  | Except.ok _ =>
    match pagLoop commentKey raws (stop_raise parseCommentOracle) fuel 0 initPagState with
    | none => none
    | some (Except.error e) => some (Except.error e)
    | some (Except.ok st) => some (Except.ok st.accepted)

/-- Module-level run (lines 283-288): builds the scrapper from the
keywords and debug flag, drives RedditScrapper.search and serialises the
returned posts (json.dumps of the dataclass dicts is a pure function of
the post list, so the post list is the observable output). The
start_datetime parameter appears here exactly as in the source signature;
keywords and debug only shape the surface oracles (the query URL and the
log level), which are passed explicitly. -/
def run {ρ : Type} (start_datetime : Int) (keywords : List String) (debug : Bool)
    (goto : Except PyError Unit)
    (raws : Nat → Except PyError (List ρ))
    (parsePostOracle : ρ → Except PyError RedditPost)
    (fetch : RedditPost → Nat → Except PyError (List RedditComment))
    (fuel : Nat) : Option (Except PyError (List RedditPost)) :=
  RedditScrapper.search goto raws parsePostOracle fetch fuel

section PagLemmas

variable {ρ α κ : Type} [DecidableEq κ] (key : α → κ) (parse : ρ → Option α)

/-- The slice fold accepts exactly the newRecords of the slice, appended
in order after the previously accepted records. -/
theorem foldl_processRecord_accepted (slice : List ρ) :
    ∀ st : PagState α κ,
      (List.foldl (processRecord key parse) st slice).accepted
        = st.accepted ++ newRecords key parse st.seen slice := by
  induction slice with
  | nil => intro st; simp [newRecords]
  | cons r rs ih =>
    intro st
    rw [List.foldl_cons]
    cases hp : parse r with
    | none =>
      rw [ih]
      simp [processRecord, hp, newRecords]
    | some a =>
      by_cases hk : key a ∈ st.seen
      · rw [ih]
        simp [processRecord, hp, hk, newRecords]
      · rw [ih]
        simp [processRecord, hp, hk, newRecords]

/-- A slice with no new records leaves the fold state untouched. -/
theorem foldl_processRecord_id (slice : List ρ) :
    ∀ st : PagState α κ, newRecords key parse st.seen slice = [] →
      List.foldl (processRecord key parse) st slice = st := by
  induction slice with
  | nil => intro st _; rfl
  | cons r rs ih =>
    intro st hs
    rw [List.foldl_cons]
    cases hp : parse r with
    | none =>
      simp only [newRecords, hp] at hs
      have hpr : processRecord key parse st r = st := by simp [processRecord, hp]
      rw [hpr]
      exact ih st hs
    | some a =>
      simp only [newRecords, hp] at hs
      by_cases hk : key a ∈ st.seen
      · rw [if_pos hk] at hs
        have hpr : processRecord key parse st r = st := by simp [processRecord, hp, hk]
        rw [hpr]
        exact ih st hs
      · rw [if_neg hk] at hs
        exact absurd hs (List.cons_ne_nil _ _)

/-- Once the new-record flag is up and the counter is reset, further
records of the slice keep them so. -/
theorem foldl_processRecord_flags (slice : List ρ) :
    ∀ st : PagState α κ, st.haveNew = true → st.tries = 0 →
      (List.foldl (processRecord key parse) st slice).haveNew = true ∧
      (List.foldl (processRecord key parse) st slice).tries = 0 := by
  induction slice with
  | nil => intro st h1 h2; exact ⟨h1, h2⟩
  | cons r rs ih =>
    intro st h1 h2
    rw [List.foldl_cons]
    cases hp : parse r with
    | none =>
      have : processRecord key parse st r = st := by simp [processRecord, hp]
      rw [this]; exact ih st h1 h2
    | some a =>
      by_cases hk : key a ∈ st.seen
      · have : processRecord key parse st r = st := by simp [processRecord, hp, hk]
        rw [this]; exact ih st h1 h2
      · have : processRecord key parse st r
            = { accepted := st.accepted ++ [a], seen := key a :: st.seen,
                haveNew := true, tries := 0 } := by simp [processRecord, hp, hk]
        rw [this]
        exact ih _ rfl rfl

/-- A slice that does contain a new record leaves the attempt with the
new-record flag up and the stall counter reset to zero. -/
theorem foldl_processRecord_found (slice : List ρ) :
    ∀ st : PagState α κ, newRecords key parse st.seen slice ≠ [] →
      (List.foldl (processRecord key parse) st slice).haveNew = true ∧
      (List.foldl (processRecord key parse) st slice).tries = 0 := by
  induction slice with
  | nil => intro st hs; exact absurd rfl hs
  | cons r rs ih =>
    intro st hs
    rw [List.foldl_cons]
    cases hp : parse r with
    | none =>
      simp only [newRecords, hp] at hs
      have hpr : processRecord key parse st r = st := by simp [processRecord, hp]
      rw [hpr]; exact ih st hs
    | some a =>
      simp only [newRecords, hp] at hs
      by_cases hk : key a ∈ st.seen
      · rw [if_pos hk] at hs
        have hpr : processRecord key parse st r = st := by simp [processRecord, hp, hk]
        rw [hpr]; exact ih st hs
      · have hpr : processRecord key parse st r
            = { accepted := st.accepted ++ [a], seen := key a :: st.seen,
                haveNew := true, tries := 0 } := by simp [processRecord, hp, hk]
        rw [hpr]
        exact foldl_processRecord_flags key parse rs _ rfl rfl

/-- Unfolding one successful reveal attempt. -/
theorem pagAttempt_ok (raws : Nat → Except PyError (List ρ)) {n : Nat}
    {st : PagState α κ} {l : List ρ} (h : raws n = Except.ok l) :
    pagAttempt key raws parse n st
      = Except.ok (List.foldl (processRecord key parse)
          { st with haveNew := false, tries := st.tries + 1 }
          (l.drop st.accepted.length)) := by
  simp [pagAttempt, h]

/-- A stalled reveal attempt only clears the flag and bumps the counter. -/
theorem pagAttempt_stall (raws : Nat → Except PyError (List ρ)) {n : Nat}
    {st : PagState α κ} {l : List ρ} (h : raws n = Except.ok l)
    (hs : newRecords key parse st.seen (l.drop st.accepted.length) = []) :
    pagAttempt key raws parse n st
      = Except.ok { st with haveNew := false, tries := st.tries + 1 } := by
  rw [pagAttempt_ok key parse raws h]
  congr 1
  exact foldl_processRecord_id key parse _ _ hs

/-- Exhausted fuel: the loop has not exited by itself. -/
theorem pagLoop_zero (raws : Nat → Except PyError (List ρ)) (n : Nat) (st : PagState α κ) :
    pagLoop key raws parse 0 n st = none := rfl

/-- One loop iteration whose guard holds and whose attempt succeeds. -/
theorem pagLoop_step_cont (raws : Nat → Except PyError (List ρ)) {fuel n : Nat}
    {st st2 : PagState α κ} (hc : loopCond st = true)
    (hA : pagAttempt key raws parse n st = Except.ok st2) :
    pagLoop key raws parse (fuel + 1) n st = pagLoop key raws parse fuel (n + 1) st2 := by
  rw [pagLoop, if_pos hc, hA]

/-- The guard fails: the loop returns the current state. -/
theorem pagLoop_step_exit (raws : Nat → Except PyError (List ρ)) {fuel n : Nat}
    {st : PagState α κ} (hc : loopCond st = false) :
    pagLoop key raws parse (fuel + 1) n st = some (Except.ok st) := by
  rw [pagLoop, if_neg (by simp [hc])]

/-- The loop only exits through the guard of line 138 / 215: on normal
exit the last attempt found nothing new and the stall counter has reached
SCROLL_TRIES. -/
theorem pagLoop_exit (raws : Nat → Except PyError (List ρ)) :
    ∀ (fuel n : Nat) (st st' : PagState α κ),
      pagLoop key raws parse fuel n st = some (Except.ok st') →
      st'.haveNew = false ∧ RedditScrapper.SCROLL_TRIES ≤ st'.tries := by
  intro fuel
  induction fuel with
  | zero => intro n st st' h; simp [pagLoop] at h
  | succ fuel ih =>
    intro n st st' h
    rw [pagLoop] at h
    by_cases hc : loopCond st
    · rw [if_pos hc] at h
      cases hA : pagAttempt key raws parse n st with
      | error e => rw [hA] at h; simp at h
      | ok st2 => rw [hA] at h; exact ih (n + 1) st2 st' h
    · rw [if_neg hc] at h
      simp only [Option.some.injEq, Except.ok.injEq] at h
      subst h
      simp only [loopCond, Bool.or_eq_true, decide_eq_true_eq, not_or, not_lt] at hc
      exact ⟨Bool.eq_false_iff.mpr hc.1 ▸ rfl, hc.2⟩

/-- The accepted list only ever grows by appending at the tail. -/
theorem pagLoop_accepted_extends (raws : Nat → Except PyError (List ρ)) :
    ∀ (fuel n : Nat) (st st' : PagState α κ),
      pagLoop key raws parse fuel n st = some (Except.ok st') →
      ∃ t, st'.accepted = st.accepted ++ t := by
  intro fuel
  induction fuel with
  | zero => intro n st st' h; simp [pagLoop] at h
  | succ fuel ih =>
    intro n st st' h
    rw [pagLoop] at h
    by_cases hc : loopCond st
    · rw [if_pos hc] at h
      cases hA : pagAttempt key raws parse n st with
      | error e => rw [hA] at h; simp at h
      | ok st2 =>
        rw [hA] at h
        obtain ⟨t, ht⟩ := ih (n + 1) st2 st' h
        cases hl : raws n with
        | error e => simp [pagAttempt, hl] at hA
        | ok l =>
          rw [pagAttempt_ok key parse raws hl] at hA
          have h2 : st2.accepted
              = st.accepted ++ newRecords key parse st.seen (l.drop st.accepted.length) := by
            rw [← Except.ok.inj hA, foldl_processRecord_accepted]
          refine ⟨newRecords key parse st.seen (l.drop st.accepted.length) ++ t, ?_⟩
          rw [ht, h2, List.append_assoc]
    · rw [if_neg hc] at h
      simp only [Option.some.injEq, Except.ok.injEq] at h
      subst h
      exact ⟨[], by simp⟩

end PagLemmas

/-- Deduplication invariant maintained by the loop state: the keys of the
accepted records are pairwise distinct, and the seen set holds exactly
those keys. -/
def PagInv {α κ : Type} (key : α → κ) (st : PagState α κ) : Prop :=
  (st.accepted.map key).Nodup ∧ ∀ k, k ∈ st.seen ↔ k ∈ st.accepted.map key

section InvLemmas

variable {ρ α κ : Type} [DecidableEq κ] (key : α → κ) (parse : ρ → Option α)

/-- Processing one record preserves the deduplication invariant. -/
theorem processRecord_inv {st : PagState α κ} (r : ρ) (h : PagInv key st) :
    PagInv key (processRecord key parse st r) := by
  cases hp : parse r with
  | none => simpa [processRecord, hp] using h
  | some a =>
    by_cases hk : key a ∈ st.seen
    · simpa [processRecord, hp, hk] using h
    · have hna : key a ∉ st.accepted.map key := fun hmem => hk ((h.2 (key a)).mpr hmem)
      constructor
      · simp only [processRecord, hp, if_neg hk, List.map_append, List.map_cons,
          List.map_nil, List.nodup_append]
        exact ⟨h.1, List.nodup_singleton _, by
          intro x hx hx2
          simp only [List.mem_singleton] at hx2
          exact hna (hx2 ▸ hx)⟩
      · intro k
        simp only [processRecord, hp, if_neg hk, List.map_append, List.map_cons,
          List.map_nil, List.mem_cons, List.mem_append, List.mem_singleton]
        rw [h.2 k]
        tauto

/-- The slice fold preserves the deduplication invariant. -/
theorem foldl_processRecord_inv (slice : List ρ) :
    ∀ st : PagState α κ, PagInv key st →
      PagInv key (List.foldl (processRecord key parse) st slice) := by
  induction slice with
  | nil => intro st h; exact h
  | cons r rs ih =>
    intro st h
    rw [List.foldl_cons]
    exact ih _ (processRecord_inv key parse r h)

/-- The whole loop preserves the deduplication invariant. -/
theorem pagLoop_inv (raws : Nat → Except PyError (List ρ)) :
    ∀ (fuel n : Nat) (st st' : PagState α κ),
      pagLoop key raws parse fuel n st = some (Except.ok st') →
      PagInv key st → PagInv key st' := by
  intro fuel
  induction fuel with
  | zero => intro n st st' h _; simp [pagLoop] at h
  | succ fuel ih =>
    intro n st st' h hInv
    rw [pagLoop] at h
    by_cases hc : loopCond st
    · rw [if_pos hc] at h
      cases hA : pagAttempt key raws parse n st with
      | error e => rw [hA] at h; simp at h
      | ok st2 =>
        rw [hA] at h
        refine ih (n + 1) st2 st' h ?_
        cases hl : raws n with
        | error e => simp [pagAttempt, hl] at hA
        | ok l =>
          rw [pagAttempt_ok key parse raws hl] at hA
          rw [← Except.ok.inj hA]
          exact foldl_processRecord_inv key parse _ _ hInv
    · rw [if_neg hc] at h
      simp only [Option.some.injEq, Except.ok.injEq] at h
      exact h ▸ hInv

/-- The accepted slice records form a sublist of the parses of the slice,
hence appear in the order the surface exposed them. -/
theorem newRecords_sublist (slice : List ρ) :
    ∀ seen : List κ,
      List.Sublist (newRecords key parse seen slice) (slice.filterMap parse) := by
  induction slice with
  | nil => intro seen; simp [newRecords]
  | cons r rs ih =>
    intro seen
    cases hp : parse r with
    | none => simpa [newRecords, hp, List.filterMap_cons, hp] using ih seen
    | some a =>
      simp only [newRecords, hp, List.filterMap_cons]
      by_cases hk : key a ∈ seen
      · rw [if_pos hk]
        exact List.Sublist.cons a (ih seen)
      · rw [if_neg hk]
        exact List.Sublist.cons₂ a (ih (key a :: seen))

/-- Three stalled attempts in a row exhaust the stall allowance: with
SCROLL_TRIES = 3 the loop runs exactly three further reveal attempts
after the state left by the last accepting attempt (have_new = True,
tries = 0) and then exits, leaving the accepted records untouched; with
one unit of fuel fewer it is still inside the loop. -/
theorem pagLoop_stall_run (raws : Nat → Except PyError (List ρ)) (n : Nat)
    (st : PagState α κ) (hhn : st.haveNew = true) (htr : st.tries = 0)
    (H : ∀ m, n ≤ m → ∃ l, raws m = Except.ok l ∧
      newRecords key parse st.seen (l.drop st.accepted.length) = []) :
    pagLoop key raws parse (RedditScrapper.SCROLL_TRIES + 1) n st
      = some (Except.ok { st with haveNew := false, tries := RedditScrapper.SCROLL_TRIES })
    ∧ pagLoop key raws parse RedditScrapper.SCROLL_TRIES n st = none := by
  obtain ⟨l0, hl0, hs0⟩ := H n (Nat.le_refl n)
  obtain ⟨l1, hl1, hs1⟩ := H (n + 1) (Nat.le_succ n)
  obtain ⟨l2, hl2, hs2⟩ := H (n + 2) (by omega)
  have hA0 : pagAttempt key raws parse n st
      = Except.ok { st with haveNew := false, tries := 1 } := by
    rw [pagAttempt_stall key parse raws hl0 hs0, htr]
  have hA1 : pagAttempt key raws parse (n + 1) { st with haveNew := false, tries := 1 }
      = Except.ok { st with haveNew := false, tries := 2 } :=
    pagAttempt_stall key parse raws hl1 hs1
  have hA2 : pagAttempt key raws parse (n + 2) { st with haveNew := false, tries := 2 }
      = Except.ok { st with haveNew := false, tries := 3 } :=
    pagAttempt_stall key parse raws hl2 hs2
  have hc0 : loopCond st = true := by simp [loopCond, hhn]
  have hc1 : loopCond ({ st with haveNew := false, tries := 1 } : PagState α κ) = true := by
    simp [loopCond, RedditScrapper.SCROLL_TRIES]
  have hc2 : loopCond ({ st with haveNew := false, tries := 2 } : PagState α κ) = true := by
    simp [loopCond, RedditScrapper.SCROLL_TRIES]
  have hc3 : loopCond ({ st with haveNew := false, tries := 3 } : PagState α κ) = false := by
    simp [loopCond, RedditScrapper.SCROLL_TRIES]
  constructor
  · rw [pagLoop_step_cont key parse raws hc0 hA0,
      show RedditScrapper.SCROLL_TRIES = 2 + 1 from rfl,
      pagLoop_step_cont key parse raws hc1 hA1,
      show (2 : Nat) = 1 + 1 from rfl,
      pagLoop_step_cont key parse raws hc2 hA2,
      show (1 : Nat) = 0 + 1 from rfl,
      pagLoop_step_exit key parse raws hc3]
  · rw [show RedditScrapper.SCROLL_TRIES = 2 + 1 from rfl,
      pagLoop_step_cont key parse raws hc0 hA0,
      show (2 : Nat) = 1 + 1 from rfl,
      pagLoop_step_cont key parse raws hc1 hA1,
      show (1 : Nat) = 0 + 1 from rfl,
      pagLoop_step_cont key parse raws hc2 hA2,
      pagLoop_zero key parse raws]

end InvLemmas

/-- Spent attempts report the remembered last exception. -/
theorem retryGo_zero {ε α : Type} (f : Nat → Except ε α) (i : Nat) (last : Option ε) :
    retryGo f 0 i last = Except.error last := rfl

/-- A failing attempt moves on to the next attempt, remembering the
exception. -/
theorem retryGo_succ_err {ε α : Type} (f : Nat → Except ε α) {n i : Nat} {last : Option ε}
    {e : ε} (h : f i = Except.error e) :
    retryGo f (n + 1) i last = retryGo f n (i + 1) (some e) := by
  rw [retryGo, h]

/-- A successful attempt returns immediately. -/
theorem retryGo_succ_ok {ε α : Type} (f : Nat → Except ε α) {n i : Nat} {last : Option ε}
    {a : α} (h : f i = Except.ok a) :
    retryGo f (n + 1) i last = Except.ok a := by
  rw [retryGo, h]

/-- With max_attempts = 3 (the value used at line 167), three failing
attempts exhaust the retry and re-raise the last exception. -/
theorem retryRun_three_failures {ε α : Type} (f : Nat → Except ε α) (es : Nat → ε)
    (h : ∀ i, 1 ≤ i → i ≤ 3 → f i = Except.error (es i)) :
    retryRun f 3 = Except.error (some (es 3)) := by
  have h1 := h 1 (by omega) (by omega)
  have h2 := h 2 (by omega) (by omega)
  have h3 := h 3 (by omega) (by omega)
  have hr : retryRun f 3 = retryGo f 3 1 none := by
    rw [retryRun, if_neg (by omega)]
  rw [hr]
  show retryGo f (2 + 1) 1 none = _
  rw [retryGo_succ_err f h1]
  show retryGo f (1 + 1) 2 (some (es 1)) = _
  rw [retryGo_succ_err f h2]
  show retryGo f (0 + 1) 3 (some (es 2)) = _
  rw [retryGo_succ_err f h3]
  rfl

/-- A first successful attempt short-circuits every further retry,
whatever the remaining attempts would have done. -/
theorem retryRun_first_success {ε α : Type} (f : Nat → Except ε α) (a : α) (n : Nat)
    (h : f 1 = Except.ok a) : retryRun f (n + 1) = Except.ok a := by
  have hr : retryRun f (n + 1) = retryGo f (n + 1) 1 none := by
    rw [retryRun, if_neg (by omega)]
  rw [hr, retryGo_succ_ok f h]

/-- Unfolding search when the navigation and the scroll loop both
succeed. -/
theorem search_ok {ρ : Type} {goto : Except PyError Unit}
    (raws : Nat → Except PyError (List ρ))
    (parsePostOracle : ρ → Except PyError RedditPost)
    (fetch : RedditPost → Nat → Except PyError (List RedditComment))
    {fuel : Nat} {st' : PagState RedditPost (String × String)}
    (hg : goto = Except.ok ())
    (hl : pagLoop postKey raws (stop_raise parsePostOracle) fuel 0 initPagState
      = some (Except.ok st')) :
    RedditScrapper.search goto raws parsePostOracle fetch fuel
      = some (Except.ok (st'.accepted.map (finishComments fetch))) := by
  subst hg
  simp [RedditScrapper.search, hl]

/-- Dropping while the head is in the character set continues behind it. -/
theorem dropWhile_mem_cons {chars : List Char} {c : Char} (l : List Char) (h : c ∈ chars) :
    List.dropWhile (fun d => decide (d ∈ chars)) (c :: l)
      = List.dropWhile (fun d => decide (d ∈ chars)) l := by
  simp [List.dropWhile_cons, h]

/-- Number of active tasks distributes over list append. -/
theorem countActive_append (l1 l2 : List TaskPhase) :
    countActive (l1 ++ l2) = countActive l1 + countActive l2 := by
  simp [countActive, List.countP_append]

/-- Number of active tasks over a cons cell. -/
theorem countActive_cons (t : TaskPhase) (l : List TaskPhase) :
    countActive (t :: l) = countActive l + (if t = TaskPhase.active then 1 else 0) := by
  by_cases h : t = TaskPhase.active <;> simp [countActive, List.countP_cons, h]

/-- One semaphore transition keeps the active count within budget: an
acquire requires headroom, a release only lowers the count. -/
theorem semStep_bound {budget : Nat} {s t : List TaskPhase} (h : SemStep budget s t)
    (hs : countActive s ≤ budget) : countActive t ≤ budget := by
  cases h with
  | acquire pre post hlt =>
    have e1 : countActive (pre ++ TaskPhase.pending :: post)
        = countActive pre + countActive post := by
      rw [countActive_append, countActive_cons]; simp
    have e2 : countActive (pre ++ TaskPhase.active :: post)
        = countActive pre + countActive post + 1 := by
      rw [countActive_append, countActive_cons]; simp; omega
    rw [e1] at hlt
    rw [e2]
    omega
  | release pre post =>
    have e1 : countActive (pre ++ TaskPhase.active :: post)
        = countActive pre + countActive post + 1 := by
      rw [countActive_append, countActive_cons]; simp; omega
    have e2 : countActive (pre ++ TaskPhase.done :: post)
        = countActive pre + countActive post := by
      rw [countActive_append, countActive_cons]; simp
    rw [e1] at hs
    rw [e2]
    omega

/-- No task starts out active. -/
theorem countActive_replicate_pending (k : Nat) :
    countActive (List.replicate k TaskPhase.pending) = 0 := by
  induction k with
  | zero => rfl
  | succ k ih => rw [List.replicate_succ, countActive_cons, ih]; simp

/-- What one reveal attempt accepts: the newRecords of the raw list with
the first accepted-count records dropped. -/
theorem pagAttempt_accepted {ρ α κ : Type} [DecidableEq κ] (key : α → κ)
    (parse : ρ → Option α) (raws : Nat → Except PyError (List ρ)) {n : Nat}
    {st st' : PagState α κ} {l : List ρ} (hl : raws n = Except.ok l)
    (hA : pagAttempt key raws parse n st = Except.ok st') :
    st'.accepted = st.accepted ++ newRecords key parse st.seen (l.drop st.accepted.length) := by
  rw [pagAttempt_ok key parse raws hl] at hA
  rw [← Except.ok.inj hA, foldl_processRecord_accepted]

/-- Raw list exposed by the frozen surface of the C1 counterexample. -/
def c1raws (n : Nat) : Except PyError (List Nat) := Except.ok [1, 2]

/-- Parser of the C1 counterexample: record 1 always fails to parse,
every other record parses to itself. -/
def c1parse (r : Nat) : Option Nat := if r = 1 then none else some r

/-- C1 counterexample: in attempt 0 the surface exposes the two raw
records [1, 2]; record 1 fails to parse and record 2 is accepted, so the
accepted list has length 1 while the full raw list read in that attempt
has length 2. The count at which the next slice starts is the accepted
length (element_handles[len(posts):] at line 146), which is 1, not the
length 2 of the full raw list the claim prescribes. -/
theorem c1_counterexample :
    pagAttempt (fun a : Nat => a) c1raws c1parse 0 initPagState
      = Except.ok { accepted := [2], seen := [2], haveNew := true, tries := 0 }
    ∧ c1raws 0 = Except.ok [1, 2]
    ∧ ({ accepted := [2], seen := [2], haveNew := true, tries := 0 } :
        PagState Nat Nat).accepted.length = 1
    ∧ (1 : Nat) ≠ [1, 2].length := by
  refine ⟨rfl, rfl, rfl, by decide⟩

/-- C1 (amended): in every reveal attempt of a pagination run (listing or
detail), the slice processed is the full raw record list read in that
attempt with its first k records dropped, where k is the length of the
accepted list -- the count of records accepted so far, not the count of
all raw records previously read; records that failed to parse or were
duplicates are not counted, so they fall inside the next attempt's slice
again. The next attempt therefore starts at the new accepted count. -/
theorem c1_slice_starts_at_accepted_count {ρ α κ : Type} [DecidableEq κ] (key : α → κ)
    (raws : Nat → Except PyError (List ρ)) (parse : ρ → Option α) (n : Nat)
    (st : PagState α κ) (l : List ρ) (st' : PagState α κ)
    (hl : raws n = Except.ok l)
    (hA : pagAttempt key raws parse n st = Except.ok st') :
    st'.accepted = st.accepted ++ newRecords key parse st.seen (l.drop st.accepted.length)
    ∧ (∀ (l2 : List ρ) (st2 : PagState α κ), raws (n + 1) = Except.ok l2 →
        pagAttempt key raws parse (n + 1) st' = Except.ok st2 →
        st2.accepted
          = st'.accepted ++ newRecords key parse st'.seen (l2.drop st'.accepted.length)) := by
  refine ⟨pagAttempt_accepted key parse raws hl hA, ?_⟩
  intro l2 st2 hl2 hA2
  exact pagAttempt_accepted key parse raws hl2 hA2

/-- C1 witness: the amended statement evaluated on the counterexample
surface. -/
theorem c1_slice_witness :
    c1raws 0 = Except.ok [1, 2]
    ∧ ({ accepted := [2], seen := [2], haveNew := true, tries := 0 } :
        PagState Nat Nat).accepted
      = (initPagState : PagState Nat Nat).accepted
        ++ newRecords (fun a : Nat => a) c1parse (initPagState : PagState Nat Nat).seen
          ([1, 2].drop (initPagState : PagState Nat Nat).accepted.length) := by
  refine ⟨rfl, ?_⟩
  exact (c1_slice_starts_at_accepted_count (fun a : Nat => a) c1raws c1parse 0
    initPagState [1, 2] _ rfl rfl).1

/-- C2: a pagination run over a surface that stops producing new records
terminates, exactly SCROLL_TRIES reveal attempts after the attempt that
accepted the last new record (with the state after that attempt carrying
have_new = True and tries = 0): with SCROLL_TRIES + 1 units of fuel the
loop returns, with the accepted records untouched and the stall counter
at SCROLL_TRIES, while SCROLL_TRIES units of fuel are not yet enough.
Moreover the stall counter resets to zero exactly when an attempt accepts
at least one new record, and the loop only ever exits with the counter at
the threshold and the last attempt having accepted nothing. -/
theorem c2_stall_termination {ρ α κ : Type} [DecidableEq κ] (key : α → κ)
    (raws : Nat → Except PyError (List ρ)) (parse : ρ → Option α) (n : Nat)
    (st : PagState α κ) (hhn : st.haveNew = true) (htr : st.tries = 0)
    (H : ∀ m, n ≤ m → ∃ l, raws m = Except.ok l ∧
      newRecords key parse st.seen (l.drop st.accepted.length) = []) :
    (pagLoop key raws parse (RedditScrapper.SCROLL_TRIES + 1) n st
       = some (Except.ok { st with haveNew := false, tries := RedditScrapper.SCROLL_TRIES })
     ∧ pagLoop key raws parse RedditScrapper.SCROLL_TRIES n st = none)
    ∧ (∀ (m : Nat) (l : List ρ) (st2 st3 : PagState α κ), raws m = Except.ok l →
        pagAttempt key raws parse m st2 = Except.ok st3 →
        newRecords key parse st2.seen (l.drop st2.accepted.length) ≠ [] →
        st3.haveNew = true ∧ st3.tries = 0)
    ∧ (∀ (fuel m : Nat) (st2 st3 : PagState α κ),
        pagLoop key raws parse fuel m st2 = some (Except.ok st3) →
        st3.haveNew = false ∧ RedditScrapper.SCROLL_TRIES ≤ st3.tries) := by
  refine ⟨pagLoop_stall_run key parse raws n st hhn htr H, ?_, ?_⟩
  · intro m l st2 st3 hl hA hne
    rw [pagAttempt_ok key parse raws hl] at hA
    rw [← Except.ok.inj hA]
    exact foldl_processRecord_found key parse _ _ hne
  · exact fun fuel m st2 st3 h => pagLoop_exit key parse raws fuel m st2 st3 h

/-- C2 witness: over a surface that never exposes any raw record, the
loop from the initial state returns within SCROLL_TRIES + 1 units of fuel
and not within SCROLL_TRIES. -/
theorem c2_stall_witness :
    pagLoop (fun a : Nat => a) (fun _ => Except.ok ([] : List Nat)) some
      (RedditScrapper.SCROLL_TRIES + 1) 0 (initPagState : PagState Nat Nat)
      = some (Except.ok ({ accepted := [], seen := [], haveNew := false, tries := RedditScrapper.SCROLL_TRIES } : PagState Nat Nat))
    ∧ pagLoop (fun a : Nat => a) (fun _ => Except.ok ([] : List Nat)) some
      RedditScrapper.SCROLL_TRIES 0 (initPagState : PagState Nat Nat) = none :=
  (c2_stall_termination (fun a : Nat => a) (fun _ => Except.ok ([] : List Nat)) some 0
    initPagState rfl rfl (fun m _ => ⟨[], rfl, rfl⟩)).1

/-- C3: within one pagination run, no two accepted records share a
composite key -- the keys of the final accepted list are pairwise
distinct, the seen set holds exactly the accepted keys, and a raw record
presenting an already-seen key in any attempt leaves the state (in
particular the accepted list) entirely unchanged. -/
theorem c3_dedup {ρ α κ : Type} [DecidableEq κ] (key : α → κ)
    (raws : Nat → Except PyError (List ρ)) (parse : ρ → Option α) (fuel : Nat)
    (st' : PagState α κ)
    (h : pagLoop key raws parse fuel 0 initPagState = some (Except.ok st')) :
    (st'.accepted.map key).Nodup
    ∧ (∀ k, k ∈ st'.seen ↔ k ∈ st'.accepted.map key)
    ∧ (∀ (st : PagState α κ) (r : ρ) (a : α), parse r = some a → key a ∈ st.seen →
        processRecord key parse st r = st) := by
  have hInv : PagInv key st' :=
    pagLoop_inv key parse raws fuel 0 initPagState st' h
      ⟨List.nodup_nil, by simp [initPagState]⟩
  refine ⟨hInv.1, hInv.2, ?_⟩
  intro st r a hp hk
  simp [processRecord, hp, hk]

/-- C3 witness: a surface exposing the duplicate-keyed raw list [1, 1, 2]
on every attempt yields the accepted list [1, 2] with distinct keys; the
second 1 is skipped in attempt 0 and the re-scanned duplicate 2 is
skipped in every later attempt. -/
theorem c3_dedup_witness :
    pagLoop (fun a : Nat => a) (fun _ => Except.ok [1, 1, 2]) some 5 0 initPagState
      = some (Except.ok ({ accepted := [1, 2], seen := [2, 1], haveNew := false, tries := 3 } : PagState Nat Nat))
    ∧ (([1, 2].map (fun a : Nat => a)).Nodup) := by
  have h : pagLoop (fun a : Nat => a) (fun _ => Except.ok [1, 1, 2]) some 5 0 initPagState
      = some (Except.ok ({ accepted := [1, 2], seen := [2, 1], haveNew := false, tries := 3 } : PagState Nat Nat)) := rfl
  exact ⟨h, (c3_dedup (fun a : Nat => a) (fun _ => Except.ok [1, 1, 2]) some 5 _ h).1⟩

/-- C4 counterexample: on the exact input of the claim,
"Mon, Jan 1, 2024, 5:30:00 PM UTC", to_isoformat does not return
"2024-01-01T17:30:00": stripping the last three whitespace-delimited
tokens removes "5:30:00 PM UTC", so the remainder "Mon, Jan 1, 2024,"
lacks the time component of the fixed pattern and strptime raises
ValueError (modelled as none). -/
theorem c4_counterexample :
    RedditScrapper.to_isoformat "Mon, Jan 1, 2024, 5:30:00 PM UTC" = none
    ∧ RedditScrapper.to_isoformat "Mon, Jan 1, 2024, 5:30:00 PM UTC"
        ≠ some "2024-01-01T17:30:00" := by
  constructor
  · decide
  · decide

/-- C4 (amended): the time normalizer strips the last three
whitespace-delimited tokens and parses the remainder against the fixed
pattern weekday, month day, year, hour:minute:second AM/PM, failing on
any remainder that does not match; consequently the input
"Mon, Jan 1, 2024, 5:30:00 PM UTC" fails with a ParseError (the time
itself is among the stripped tokens), while an input whose last three
tokens are all extraneous, such as
"Mon, Jan 1, 2024, 5:30:00 PM Coordinated Universal Time", normalizes to
the ISO-8601 instant "2024-01-01T17:30:00". -/
theorem c4_to_isoformat_amended :
    RedditScrapper.to_isoformat "Mon, Jan 1, 2024, 5:30:00 PM Coordinated Universal Time"
      = some "2024-01-01T17:30:00"
    ∧ RedditScrapper.to_isoformat "Mon, Jan 1, 2024, 5:30:00 PM UTC" = none
    ∧ (∀ value : String, RedditScrapper.to_isoformat value = none
        ∨ ∃ p, strptimeReddit (stripLast3 value) = some p) := by
  refine ⟨by decide, by decide, ?_⟩
  intro value
  cases h : strptimeReddit (stripLast3 value) with
  | none =>
    left
    simp [RedditScrapper.to_isoformat, h]
  | some p => exact Or.inr ⟨p, rfl⟩

/-- C7: at every reachable scheduling state, the number of comment-fetch
tasks holding the active phase is at most MAX_CONCURRENT_TASK: every task
starts pending, may only turn active through the semaphore acquire of
with_semaphore (which requires the active count to be below the budget),
and there is no other transition into the active phase. -/
theorem c7_concurrency_bound (k : Nat) (s : List TaskPhase)
    (h : Relation.ReflTransGen (SemStep RedditScrapper.MAX_CONCURRENT_TASK)
      (List.replicate k TaskPhase.pending) s) :
    countActive s ≤ RedditScrapper.MAX_CONCURRENT_TASK := by
  induction h with
  | refl => rw [countActive_replicate_pending]; exact Nat.zero_le _
  | tail hsteps hstep ih => exact semStep_bound hstep ih

/-- C7 witness: from two scheduled tasks, acquiring the single slot for
the first one reaches a state that the bound theorem covers. -/
theorem c7_concurrency_bound_witness :
    Relation.ReflTransGen (SemStep RedditScrapper.MAX_CONCURRENT_TASK)
      (List.replicate 2 TaskPhase.pending) [TaskPhase.active, TaskPhase.pending]
    ∧ countActive [TaskPhase.active, TaskPhase.pending]
        ≤ RedditScrapper.MAX_CONCURRENT_TASK := by
  have hstep : SemStep RedditScrapper.MAX_CONCURRENT_TASK
      (List.replicate 2 TaskPhase.pending) [TaskPhase.active, TaskPhase.pending] :=
    SemStep.acquire ([] : List TaskPhase) [TaskPhase.pending] (by decide)
  exact ⟨Relation.ReflTransGen.single hstep,
    c7_concurrency_bound 2 _ (Relation.ReflTransGen.single hstep)⟩

/-- C9: the materialized ids are derived with str.lstrip, which removes
every leading character drawn from the set of characters of "t3_"
(resp. "t1_"), not just the literal prefix: after the prefix itself is
consumed, a next character that is again one of t, 3, _ (resp. t, 1, _)
is removed as well, and on concrete reduplicated inputs the whole run of
such characters disappears. -/
theorem c9_id_strip :
    (∀ (c : Char) (rest : List Char), c ∈ ['t', '3', '_'] →
      postIdFromAttr ("t3_" ++ String.mk (c :: rest))
        = pyLstrip ['t', '3', '_'] (String.mk rest))
    ∧ (∀ (c : Char) (rest : List Char), c ∈ ['t', '1', '_'] →
      commentIdFromAttr ("t1_" ++ String.mk (c :: rest))
        = pyLstrip ['t', '1', '_'] (String.mk rest))
    ∧ postIdFromAttr "t3_t3_abc" = "abc"
    ∧ commentIdFromAttr "t1_t1_xyz" = "xyz" := by
  refine ⟨?_, ?_, by decide, by decide⟩
  · intro c rest hc
    have hdata : ("t3_" ++ String.mk (c :: rest)).data = 't' :: '3' :: '_' :: c :: rest := by
      rw [String.data_append]
      rfl
    unfold postIdFromAttr pyLstrip
    rw [hdata, dropWhile_mem_cons _ (by decide), dropWhile_mem_cons _ (by decide),
      dropWhile_mem_cons _ (by decide), dropWhile_mem_cons _ hc]
  · intro c rest hc
    have hdata : ("t1_" ++ String.mk (c :: rest)).data = 't' :: '1' :: '_' :: c :: rest := by
      rw [String.data_append]
      rfl
    unfold commentIdFromAttr pyLstrip
    rw [hdata, dropWhile_mem_cons _ (by decide), dropWhile_mem_cons _ (by decide),
      dropWhile_mem_cons _ (by decide), dropWhile_mem_cons _ hc]

/-- C9 witness: a post id attribute "t3_3ab" materializes as "ab" (the
digit 3 after the prefix is stripped too), via the theorem at c = 3. -/
theorem c9_id_strip_witness :
    ('3' ∈ ['t', '3', '_'])
    ∧ postIdFromAttr ("t3_" ++ String.mk ('3' :: ['a', 'b']))
        = pyLstrip ['t', '3', '_'] (String.mk ['a', 'b']) :=
  ⟨by decide, c9_id_strip.1 '3' ['a', 'b'] (by decide)⟩

/-- C5: detail-fetch failures are isolated. When the listing pass itself
succeeds, search returns normally whatever the comment fetches did, with
every post carried in the result; a post whose three fetch attempts (the
max_attempts = 3 of line 167) all raised keeps exactly the record it was
materialized with -- and parse_post materializes every post with an empty
comment list, so such a post is returned with zero comments; a first
successful attempt short-circuits the remaining retries. -/
theorem c5_retry_isolation {ρ : Type} (goto : Except PyError Unit)
    (raws : Nat → Except PyError (List ρ))
    (parsePostOracle : ρ → Except PyError RedditPost)
    (fetch : RedditPost → Nat → Except PyError (List RedditComment))
    (fuel : Nat) (st' : PagState RedditPost (String × String))
    (hg : goto = Except.ok ())
    (hl : pagLoop postKey raws (stop_raise parsePostOracle) fuel 0 initPagState
      = some (Except.ok st')) :
    RedditScrapper.search goto raws parsePostOracle fetch fuel
      = some (Except.ok (st'.accepted.map (finishComments fetch)))
    ∧ (∀ (p : RedditPost) (es : Nat → PyError),
        (∀ i, 1 ≤ i → i ≤ 3 → fetch p i = Except.error (es i)) →
        finishComments fetch p = p)
    ∧ (∀ (p : RedditPost) (cs : List RedditComment), fetch p 1 = Except.ok cs →
        finishComments fetch p = { p with comments := cs })
    ∧ (∀ (e : PostElement) (post : RedditPost),
        RedditScrapper.parse_post e = Except.ok post → post.comments = []) := by
  refine ⟨search_ok raws parsePostOracle fetch hg hl, ?_, ?_, ?_⟩
  · intro p es hfail
    unfold finishComments
    rw [retryRun_three_failures (fetch p) es hfail]
  · intro p cs hok
    unfold finishComments
    rw [show (3 : Nat) = 2 + 1 from rfl, retryRun_first_success (fetch p) cs 2 hok]
  · intro e post hp
    cases h : RedditScrapper.to_isoformat e.createdAtText with
    | none => simp [RedditScrapper.parse_post, h] at hp
    | some created =>
      simp [RedditScrapper.parse_post, h] at hp
      rw [← hp]

/-- C5 witness: with a surface exposing no posts and a fetch that always
times out, the run still returns normally. -/
theorem c5_retry_isolation_witness :
    RedditScrapper.search (Except.ok ()) (fun _ => Except.ok ([] : List PostElement))
      RedditScrapper.parse_post (fun _ _ => Except.error "TimeoutError") 4
      = some (Except.ok (([] : List RedditPost).map
          (finishComments (fun _ _ => Except.error "TimeoutError")))) :=
  (c5_retry_isolation (Except.ok ()) (fun _ => Except.ok ([] : List PostElement))
    RedditScrapper.parse_post (fun _ _ => Except.error "TimeoutError") 4
    { accepted := [], seen := [], haveNew := false, tries := 3 } rfl rfl).1

/-- C6: order preservation. The records accepted in one attempt are a
sublist of the parses of the exposed raw slice, in the order the surface
exposed them; the session coordinator returns exactly the accepted posts
of the listing pass, mapped in place (so in listing-discovery order) to
attach each post's settled comment fetch, which never changes a post's
identifying fields. -/
theorem c6_order_preservation {ρ α κ : Type} [DecidableEq κ] (key : α → κ)
    (parse : ρ → Option α) (ρ2 : Type) (goto : Except PyError Unit)
    (raws : Nat → Except PyError (List ρ2))
    (parsePostOracle : ρ2 → Except PyError RedditPost)
    (fetch : RedditPost → Nat → Except PyError (List RedditComment))
    (fuel : Nat) (st' : PagState RedditPost (String × String))
    (hg : goto = Except.ok ())
    (hl : pagLoop postKey raws (stop_raise parsePostOracle) fuel 0 initPagState
      = some (Except.ok st')) :
    (∀ (seen : List κ) (rs : List ρ),
      List.Sublist (newRecords key parse seen rs) (rs.filterMap parse))
    ∧ RedditScrapper.search goto raws parsePostOracle fetch fuel
        = some (Except.ok (st'.accepted.map (finishComments fetch)))
    ∧ (∀ p : RedditPost, (finishComments fetch p).id = p.id
        ∧ (finishComments fetch p).subreddit = p.subreddit
        ∧ (finishComments fetch p).title = p.title
        ∧ (finishComments fetch p).created_at = p.created_at) := by
  refine ⟨fun seen rs => newRecords_sublist key parse rs seen,
    search_ok raws parsePostOracle fetch hg hl, ?_⟩
  intro p
  unfold finishComments
  cases hr : retryRun (fetch p) 3 with
  | ok cs => exact ⟨rfl, rfl, rfl, rfl⟩
  | error e => exact ⟨rfl, rfl, rfl, rfl⟩

/-- C6 witness: the accepted records [2] of the raw slice [1, 2] under the
parser that drops record 1 form a sublist of the parses, in exposure
order. -/
theorem c6_order_preservation_witness :
    List.Sublist (newRecords (fun a : Nat => a) c1parse ([] : List Nat) [1, 2])
      ([1, 2].filterMap c1parse) :=
  (c6_order_preservation (fun a : Nat => a) c1parse PostElement (Except.ok ())
    (fun _ => Except.ok ([] : List PostElement)) RedditScrapper.parse_post
    (fun _ _ => Except.error "x") 4
    { accepted := [], seen := [], haveNew := false, tries := 3 } rfl rfl).1 [] [1, 2]

/-- Frozen surface of the C8 counterexample: one raw record, always
exposed. -/
def c8raws (n : Nat) : Except PyError (List Nat) := Except.ok [1]

/-- Parse oracle of the C8 counterexample: the per-record parse of the
listing pass always raises a surface interaction timeout (parse_post
awaits hover and wait_for_selector with TIMEOUT_MS, whose TimeoutError
raises inside the stop_raise wrapper of line 151). -/
def c8parse (r : Nat) : Except PyError RedditPost := Except.error "TimeoutError"

/-- C8 counterexample: an interaction timeout raised while parsing a
record of the top-level listing pass does NOT abort the run: stop_raise
swallows it, the record is skipped, and search returns normally (here
with an empty result), never an error -- so not every surface error in
the listing pass is fatal, only those outside the per-record parser. -/
theorem c8_counterexample :
    c8parse 1 = Except.error "TimeoutError"
    ∧ RedditScrapper.search (Except.ok ()) c8raws c8parse
        (fun _ _ => Except.error "x") 4 = some (Except.ok [])
    ∧ (∀ e : PyError, RedditScrapper.search (Except.ok ()) c8raws c8parse
        (fun _ _ => Except.error "x") 4 ≠ some (Except.error e)) := by
  have h2 : RedditScrapper.search (Except.ok ()) c8raws c8parse
      (fun _ _ => Except.error "x") 4 = some (Except.ok []) := rfl
  refine ⟨rfl, h2, ?_⟩
  intro e he
  rw [h2] at he
  simp at he

/-- C8 (amended): surface failures of the top-level listing pass outside
per-record parsing are fatal and unretried: a failing navigation to the
search page aborts the run with that error; a failing raw-list read (or
per-element scroll) at any active attempt aborts the loop and hence the
run with that error, regardless of what the detail fetches would do, so a
run either completes with a possibly-incomplete result set or aborts
entirely. Surface errors raised inside the per-record parser, by
contrast, are swallowed by stop_raise and merely skip that record. -/
theorem c8_listing_abort {ρ α κ : Type} [DecidableEq κ] (key : α → κ)
    (parse : ρ → Option α) (raws : Nat → Except PyError (List ρ)) :
    (∀ (ρ2 : Type) (e : PyError) (raws2 : Nat → Except PyError (List ρ2))
        (parsePostOracle : ρ2 → Except PyError RedditPost)
        (fetch : RedditPost → Nat → Except PyError (List RedditComment)) (fuel : Nat),
      RedditScrapper.search (Except.error e) raws2 parsePostOracle fetch fuel
        = some (Except.error e))
    ∧ (∀ (fuel n : Nat) (st : PagState α κ) (e : PyError), loopCond st = true →
        raws n = Except.error e →
        pagLoop key raws parse (fuel + 1) n st = some (Except.error e))
    ∧ (∀ (ρ2 : Type) (goto : Except PyError Unit) (raws2 : Nat → Except PyError (List ρ2))
        (parsePostOracle : ρ2 → Except PyError RedditPost)
        (fetch : RedditPost → Nat → Except PyError (List RedditComment))
        (fuel : Nat) (e : PyError), goto = Except.ok () →
        pagLoop postKey raws2 (stop_raise parsePostOracle) fuel 0 initPagState
          = some (Except.error e) →
        RedditScrapper.search goto raws2 parsePostOracle fetch fuel
          = some (Except.error e))
    ∧ (∀ (st : PagState α κ) (r : ρ) (f : ρ → Except PyError α) (e : PyError),
        f r = Except.error e →
        stop_raise f r = none ∧ processRecord key (stop_raise f) st r = st) := by
  refine ⟨?_, ?_, ?_, ?_⟩
  · intro ρ2 e raws2 parsePostOracle fetch fuel
    rfl
  · intro fuel n st e hc hraws
    rw [pagLoop, if_pos hc]
    simp [pagAttempt, hraws]
  · intro ρ2 goto raws2 parsePostOracle fetch fuel e hg hloop
    subst hg
    simp [RedditScrapper.search, hloop]
  · intro st r f e hf
    constructor
    · simp [stop_raise, hf]
    · simp [processRecord, stop_raise, hf]

/-- C8 witness: a raw-list read failing with a timeout at the first
attempt aborts the loop with that error. -/
theorem c8_listing_abort_witness :
    loopCond (initPagState : PagState Nat Nat) = true
    ∧ pagLoop (fun a : Nat => a) (fun _ => Except.error "TimeoutError") some (0 + 1) 0
        (initPagState : PagState Nat Nat) = some (Except.error "TimeoutError") :=
  ⟨rfl, (c8_listing_abort (fun a : Nat => a) some
    (fun _ => Except.error "TimeoutError")).2.1 0 0 initPagState "TimeoutError" rfl rfl⟩

/-- C10: the module-level run entry point ignores start_datetime: two
invocations differing only in start_datetime, with the same keywords,
debug flag and surface behavior, produce the same output. -/
theorem c10_run_ignores_start_datetime {ρ : Type} (s1 s2 : Int) (keywords : List String)
    (debug : Bool) (goto : Except PyError Unit) (raws : Nat → Except PyError (List ρ))
    (parsePostOracle : ρ → Except PyError RedditPost)
    (fetch : RedditPost → Nat → Except PyError (List RedditComment)) (fuel : Nat) :
    run s1 keywords debug goto raws parsePostOracle fetch fuel
      = run s2 keywords debug goto raws parsePostOracle fetch fuel := rfl

end ExordeReddit
